import Mathlib

/-!
# Verification of the MCP file-query server (`server.py`)

A shallow embedding of `server.py` and proofs about its operations.

Modelling conventions:
* `pathlib` paths are an absolute flag plus a list of segments; `pathlib`
  drops empty and `"."` segments when parsing and keeps `".."` segments
  un-collapsed, while the operating system collapses `".."` lexically when
  a path is actually checked (`is_file`), symlinks not modelled.
* The filesystem is the finite set of regular files, each given by its
  resolved (absolute, `".."`-free) segment list, in traversal order.
* The inference backend (`google.genai`) is an oracle parameter: per file
  it either returns the first candidate's text or raises with a message.
* `random.shuffle` is an oracle permutation function; theorems that need
  it constrain it to produce a permutation of its input.
* Machine-level concurrency is modelled by an explicit step relation over
  per-task statuses, gated the way `asyncio.Semaphore` gates admission.
-/

namespace FileQuery

/-- `MAX_CONCURRENT_TASKS = 50` from `server.py`. -/
def MAX_CONCURRENT_TASKS : Nat := 50

/-- `MAX_FILES_FOR_DIR_TREE = 100` from `server.py`. -/
def MAX_FILES_FOR_DIR_TREE : Nat := 100

/-- `OVERVIEW_MAX_FILES = 100` from `server.py`. -/
def OVERVIEW_MAX_FILES : Nat := 100

/-- `OVERVIEW_FILENAME = "_OVERVIEW.json"` from `server.py`. -/
def OVERVIEW_FILENAME : String := "_OVERVIEW.json"

/-- A `pathlib` path: absolute flag plus segments. -/
structure PyPath where
  absolute : Bool
  segs : List String
deriving DecidableEq

/-- Split a character list at `/` separators. -/
def splitSlash : List Char → List Char → List (List Char)
  | cur, [] => [cur.reverse]
  | cur, c :: cs =>
    if c == '/' then cur.reverse :: splitSlash [] cs else splitSlash (c :: cur) cs

/-- How `pathlib` parses a path string into segments: split on `/`,
dropping empty and `"."` segments, keeping `".."`. -/
def splitPath (s : String) : List String :=
  ((splitSlash [] s.data).map String.mk).filter (fun seg => seg != "" && seg != ".")

/-- A path string is absolute when it starts with `/`. -/
def isAbsolutePath (s : String) : Bool :=
  match s.data with
  | [] => false
  | c :: _ => c == '/'

/-- `pathlib`'s `/` operator (`self.root_directory / filename`): an
absolute right operand replaces the left one entirely. -/
def joinPath (root : PyPath) (filename : String) : PyPath :=
  if isAbsolutePath filename then ⟨true, splitPath filename⟩
  else ⟨root.absolute, root.segs ++ splitPath filename⟩

/-- `str(path)`. -/
def pathStr (p : PyPath) : String :=
  (if p.absolute then "/" else "") ++ String.intercalate "/" p.segs

/-- Operating-system resolution of `".."` segments (no symlinks
modelled): `".."` pops the previous segment and is a no-op at the root. -/
def resolveSegs (segs : List String) : List String :=
  segs.foldl (fun acc seg => if seg = ".." then acc.dropLast else acc ++ [seg]) []

/-- The filesystem model: the regular files, as resolved absolute
`".."`-free segment lists, listed in filesystem traversal order. -/
structure FS where
  files : List (List String)
deriving DecidableEq

/-- `Path.is_file()`: the path, resolved by the operating system, names a
regular file. -/
def FS.isFile (fs : FS) (p : PyPath) : Bool :=
  p.absolute && fs.files.contains (resolveSegs p.segs)

/-- Whether a resolved segment list names a directory: some regular file
lives strictly below it (empty directories are not modelled). -/
def FS.isDirSegs (fs : FS) (d : List String) : Bool :=
  fs.files.any (fun f => d.isPrefixOf f && decide (d ≠ f))

/-- `Path.is_dir()` on the model. -/
def FS.isDir (fs : FS) (p : PyPath) : Bool :=
  p.absolute && fs.isDirSegs (resolveSegs p.segs)

/-- `FileQueryService`: `root_directory = Path(root).resolve()`, an
absolute `".."`-free path; the constructor has checked it is a directory. -/
structure FileQueryService where
  root : List String
deriving DecidableEq

/-- The root as a `PyPath`. -/
def FileQueryService.rootPath (svc : FileQueryService) : PyPath :=
  ⟨true, svc.root⟩

/-- Outcome of one call to the inference backend for one file: `.ok text`
models a response whose first candidate carries `text`; `.exn msg` models
the call raising (network failure, no candidates, no text, ...). -/
inductive BackendResult where
  | ok (text : String)
  | exn (msg : String)
deriving DecidableEq

/-- The body of `FileQueryService._process_single_file` (lines 83-110).
`readable` models whether `file_to_part` succeeds.  Every exception is
caught by the `try/except Exception` inside the body and converted to an
error string, so the body always returns normally. -/
def processSingleFile (readable : PyPath → Bool) (backend : PyPath → BackendResult)
    (p : PyPath) : String :=
  if !readable p then "Error: Could not read file " ++ pathStr p
  else
    match backend p with
    | BackendResult.ok text => text
    | BackendResult.exn msg => "Error processing file " ++ pathStr p ++ ": " ++ msg

/-- One attempt of the `@retry`-decorated coroutine, with the backend's
behaviour indexed by attempt number (`backendAt n` is what the backend
would do on attempt `n`).  `Except.error` would model the attempt
raising; the body of `_process_single_file` catches every exception, so
an attempt always returns `Except.ok`. -/
def processAttemptBody (readable : PyPath → Bool) (backendAt : Nat → BackendResult)
    (p : PyPath) (attempt : Nat) : Except String String :=
  Except.ok (processSingleFile readable (fun _ => backendAt attempt) p)

/-- `tenacity.retry(stop=stop_after_attempt(n))`: run attempt 0; if it
raises, run attempt 1, and so on; after `n` raising attempts fail with a
`RetryError` wrapping the last exception.  Also returns the number of
attempts actually executed. -/
def tenacityRetryAux (body : Nat → Except String String) :
    Nat → Nat → Except String String × Nat
  | _, 0 => (Except.error "RetryError: no attempts permitted", 0)
  | start, Nat.succ k =>
    match body start with
    | Except.ok s => (Except.ok s, 1)
    | Except.error msg =>
      if k = 0 then (Except.error ("RetryError: " ++ msg), 1)
      else
        match tenacityRetryAux body (start + 1) k with
        | (r, used) => (r, used + 1)

/-- `tenacity.retry(stop=stop_after_attempt(n))` applied to a body. -/
def tenacityRetry (n : Nat) (body : Nat → Except String String) :
    Except String String × Nat :=
  tenacityRetryAux body 0 n

/-- `_process_single_file` as deployed: the body under
`@retry(stop=stop_after_attempt(3))`. -/
def process_single_file (readable : PyPath → Bool) (backendAt : Nat → BackendResult)
    (p : PyPath) : Except String String × Nat :=
  tenacityRetry 3 (processAttemptBody readable backendAt p)

/-- Python `dict` assignment `d[k] = v` on an insertion-ordered
association list: an existing key keeps its position and gets the new
value; a fresh key is appended. -/
def dictInsert (d : List (String × String)) (k v : String) :
    List (String × String) :=
  if d.any (fun kv => kv.1 == k) then
    d.map (fun kv => if kv.1 = k then (k, v) else kv)
  else d ++ [(k, v)]

/-- The keys of a Python dict, in order. -/
def dictKeys (d : List (String × String)) : List String := d.map Prod.fst

/-- Python `d[k]` lookup. -/
def dictFind (d : List (String × String)) (k : String) : Option String :=
  (d.find? (fun kv => kv.1 == k)).map Prod.snd

/-- `Path.relative_to(base)`: purely lexical; succeeds iff `base`'s
segments are a prefix of the path's (both absolute here), returning the
remaining segments as a string; raises `ValueError` (modelled `none`)
otherwise. -/
def relativeTo (base : List String) (p : PyPath) : Option String :=
  if base.isPrefixOf p.segs then
    some (String.intercalate "/" (p.segs.drop base.length))
  else none

/-- Lines 128-132 of `map_query_files`: the resolved working set — each
filename joined onto the root, kept iff it is an existing regular file. -/
def targetFiles (svc : FileQueryService) (fs : FS) (filenames : List String) :
    List PyPath :=
  (filenames.map (fun filename => joinPath svc.rootPath filename)).filter
    (fun p => fs.isFile p)

/-- The result-formatting loop of `map_query_files` (lines 152-158),
threading the Python dict.  Each task's `_process_single_file` call
catches every exception, so the `isinstance(result, Exception)` branch of
the loop is unreachable and the recorded outcome for a file is exactly
`processSingleFile`.  `none` models the loop raising `ValueError` from
`relative_to` (possible only for an admitted absolute path outside the
root). -/
def formatResults (svc : FileQueryService) (readable : PyPath → Bool)
    (backend : PyPath → BackendResult) :
    List PyPath → List (String × String) → Option (List (String × String))
  | [], d => some d
  | p :: ps, d =>
    match relativeTo svc.root p with
    | some key =>
      formatResults svc readable backend ps
        (dictInsert d key (processSingleFile readable backend p))
    | none => none

/-- `FileQueryService.map_query_files` (lines 123-160).  The
`filenames`-must-be-a-list guard is enforced by the type.  Returns `none`
when the formatting loop raises; otherwise `some` of the result dict. -/
def map_query_files (svc : FileQueryService) (fs : FS) (readable : PyPath → Bool)
    (backend : PyPath → BackendResult) (filenames : List String) :
    Option (List (String × String)) :=
  let target := targetFiles svc fs filenames
  if target.isEmpty then some [("error", "No valid target files found")]
  else formatResults svc readable backend target []

/-- The files for which `map_query_files` schedules an inference task
(`process_with_semaphore`): every resolved target file — unless the
working set is empty, in which case the function returns at line 135
before creating any task. -/
def inferenceCalls (svc : FileQueryService) (fs : FS) (filenames : List String) :
    List PyPath :=
  let target := targetFiles svc fs filenames
  if target.isEmpty then [] else target

/-- `FileQueryService.directory_tree_full` (lines 112-121): every regular
file under the root in traversal order, as a relative path string,
excluding the reserved overview filename (the exclusion compares the
whole relative path, so only the sidecar directly under the root is
excluded). -/
def directory_tree_full (svc : FileQueryService) (fs : FS) : List String :=
  (fs.files.filterMap (fun f =>
    if svc.root.isPrefixOf f then
      some (String.intercalate "/" (f.drop svc.root.length))
    else none)).filter (fun rel => rel != OVERVIEW_FILENAME)

/-- The JSON object returned by the `directory_tree` tool. -/
structure DirTreeResult where
  truncated : Bool
  files : List String
deriving DecidableEq

/-- The `directory_tree` tool (lines 236-251): the first
`MAX_FILES_FOR_DIR_TREE` entries of the full enumeration, with
`truncated` computed as `len(files) == MAX_FILES_FOR_DIR_TREE`. -/
def directory_tree (svc : FileQueryService) (fs : FS) : DirTreeResult :=
  let files := (directory_tree_full svc fs).take MAX_FILES_FOR_DIR_TREE
  ⟨files.length == MAX_FILES_FOR_DIR_TREE, files⟩

/-- Code-point lexicographic comparison, as Python compares strings. -/
def charListLe : List Char → List Char → Bool
  | [], _ => true
  | _ :: _, [] => false
  | c :: cs, d :: ds =>
    if c.toNat < d.toNat then true
    else if d.toNat < c.toNat then false
    else charListLe cs ds

/-- Code-point lexicographic comparison of strings. -/
def strLe (a b : String) : Bool := charListLe a.data b.data

/-- Insertion into a lexicographically sorted list of strings. -/
def insertSorted (x : String) : List String → List String
  | [] => [x]
  | y :: ys => if strLe x y then x :: y :: ys else y :: insertSorted x ys

/-- Python `sorted` on strings. -/
def sortStrings (l : List String) : List String := l.foldr insertSorted []

/-- The child entry names of a directory (given by resolved segments):
each distinct next segment of a file lying below the directory, in
traversal order (`Path.iterdir` yields each entry once). -/
def FS.childNames (fs : FS) (dir : List String) : List String :=
  (fs.files.filterMap (fun f =>
    if dir.isPrefixOf f && decide (dir.length < f.length) then f.get? dir.length
    else none)).dedup

/-- The `ls` tool (lines 254-279): errors unless `root / path` is a
directory, otherwise the sorted child names with directories suffixed by
`/`.  Note there is no exclusion of `OVERVIEW_FILENAME` here. -/
def ls (svc : FileQueryService) (fs : FS) (path : String) :
    Except String (List String) :=
  let target := joinPath svc.rootPath path
  let dirSegs := resolveSegs target.segs
  if !fs.isDir target then
    Except.error ("Error: " ++ pathStr target ++
      " is not a directory or does not exist")
  else
    Except.ok (sortStrings ((fs.childNames dirSegs).map (fun e =>
      if fs.isDirSegs (dirSegs ++ [e]) then e ++ "/" else e)))

/-- Lower-case hexadecimal digit. -/
def hexDigitChar (n : Nat) : Char :=
  if n < 10 then Char.ofNat (48 + n) else Char.ofNat (87 + n)

/-- Four-digit lower-case hexadecimal rendering, as in `\uXXXX`. -/
def hex4 (n : Nat) : String :=
  String.mk [hexDigitChar (n / 4096 % 16), hexDigitChar (n / 256 % 16),
    hexDigitChar (n / 16 % 16), hexDigitChar (n % 16)]

/-- `json.dumps` escaping of one character (default `ensure_ascii=True`):
the two-character escapes, `\uXXXX` for other control or non-ASCII
characters (surrogate pairs above `0xFFFF`), the character itself
otherwise. -/
def escapeChar (c : Char) : String :=
  if c = '"' then "\\\""
  else if c = '\\' then "\\\\"
  else if c = '\n' then "\\n"
  else if c = '\t' then "\\t"
  else if c = '\r' then "\\r"
  else if c.toNat = 8 then "\\b"
  else if c.toNat = 12 then "\\f"
  else if c.toNat < 32 || 126 < c.toNat then
    if c.toNat < 65536 then "\\u" ++ hex4 c.toNat
    else "\\u" ++ hex4 (55296 + (c.toNat - 65536) / 1024) ++
      "\\u" ++ hex4 (56320 + (c.toNat - 65536) % 1024)
  else String.singleton c

/-- `json.dumps` of a string. -/
def pyDumpsStr (s : String) : String :=
  "\"" ++ String.join (s.toList.map escapeChar) ++ "\""

/-- `json.dumps(d, indent=n)` for a flat `dict[str, str]` — the only JSON
shape this server serializes (every Batch Result, including the
`error` dict).  Matches CPython's output: `\x7b\x7d` for the empty dict,
otherwise one indented `"key": "value"` line per entry, separated by
`,\n`. -/
def pyDumps (indent : Nat) (d : List (String × String)) : String :=
  if d.isEmpty then "\x7b\x7d"
  else
    "\x7b\n" ++
    String.intercalate ",\n"
      (d.map (fun kv =>
        String.mk (List.replicate indent ' ') ++ pyDumpsStr kv.1 ++ ": " ++
          pyDumpsStr kv.2)) ++
    "\n\x7d"

/-- The `\x7b` character. -/
def lbraceChar : Char := Char.ofNat 123

/-- The `\x7d` character. -/
def rbraceChar : Char := Char.ofNat 125

/-- JSON whitespace skipping. -/
def skipWs : List Char → List Char
  | [] => []
  | c :: cs =>
    if c == ' ' || c == '\n' || c == '\t' || c == '\r' then skipWs cs
    else c :: cs

/-- Parse the body of a JSON string literal up to its closing quote.
Escape sequences are not modelled (`none`), which is enough for the
escape-free strings this development evaluates `json.load` on. -/
def parseStringBody : List Char → Option (String × List Char)
  | [] => none
  | c :: cs =>
    if c == '"' then some ("", cs)
    else if c == '\\' then none
    else
      match parseStringBody cs with
      | some (s, rest) => some (String.singleton c ++ s, rest)
      | none => none

/-- Parse the `"key": "value"` entries of a flat JSON object, starting at
the first key's opening quote, consuming the closing brace.  Fuelled
recursion. -/
def parsePairs : Nat → List Char → Option (List (String × String) × List Char)
  | 0, _ => none
  | Nat.succ fuel, cs0 =>
    match skipWs cs0 with
    | [] => none
    | c :: cs1 =>
      if c != '"' then none
      else
        match parseStringBody cs1 with
        | none => none
        | some (k, cs2) =>
          match skipWs cs2 with
          | [] => none
          | c3 :: cs3 =>
            if c3 != ':' then none
            else
              match skipWs cs3 with
              | [] => none
              | c4 :: cs4 =>
                if c4 != '"' then none
                else
                  match parseStringBody cs4 with
                  | none => none
                  | some (v, cs5) =>
                    match skipWs cs5 with
                    | [] => none
                    | c6 :: cs6 =>
                      if c6 == ',' then
                        match parsePairs fuel cs6 with
                        | some (ps, rest) => some ((k, v) :: ps, rest)
                        | none => none
                      else if c6 == rbraceChar then some ([(k, v)], cs6)
                      else none

/-- `json.load` on the model: parse a flat string-to-string JSON object
(the shape this server persists); `none` models the parse raising. -/
def parseFlatDict (s : String) : Option (List (String × String)) :=
  match skipWs s.toList with
  | [] => none
  | c :: cs =>
    if c != lbraceChar then none
    else
      match skipWs cs with
      | [] => none
      | c2 :: cs2 =>
        if c2 == rbraceChar then
          if (skipWs cs2).isEmpty then some [] else none
        else
          match parsePairs (s.length + 1) (c2 :: cs2) with
          | some (ps, rest) => if (skipWs rest).isEmpty then some ps else none
          | none => none

/-- The fixed query used by `get_overview` (line 311). -/
def overviewQuery : String :=
  "give overview. Use dense langauge so that fewest words carry most meaning."

/-- What one `get_overview` call produces: the returned response string,
the sidecar content afterwards, and the files for which an inference
task was scheduled. -/
structure OverviewOutcome where
  response : String
  newSidecar : Option String
  calls : List PyPath
deriving DecidableEq

/-- The regeneration path of `get_overview` (lines 306-320): shuffle the
full enumeration, keep the first `OVERVIEW_MAX_FILES`, run
`map_query_files` once, persist with `indent=4` (best-effort, modelled by
`persistOk`), return the result with `indent=2`. -/
def generateOverview (svc : FileQueryService) (fs : FS) (readable : PyPath → Bool)
    (backend : PyPath → BackendResult) (shuffled : List String)
    (persistOk : Bool) : Option OverviewOutcome :=
  let selected := shuffled.take OVERVIEW_MAX_FILES
  match map_query_files svc fs readable backend selected with
  | some d =>
    some ⟨pyDumps 2 d, if persistOk then some (pyDumps 4 d) else none,
      inferenceCalls svc fs selected⟩
  | none => none

/-- The `get_overview` tool (lines 282-320).  `sidecar` is the current
content of `root/_OVERVIEW.json` (`none` when absent); if it loads and
parses, its parsed value is re-serialized with `indent=2` and returned
with no inference work; otherwise the file is deleted (best-effort) and
the overview regenerated.  `shuffled` stands for the state of
`all_files` after `random.shuffle`; theorems that rely on it constrain
it to a permutation of `directory_tree_full`. -/
def get_overview (svc : FileQueryService) (fs : FS) (readable : PyPath → Bool)
    (backend : PyPath → BackendResult) (sidecar : Option String)
    (shuffled : List String) (persistOk : Bool) : Option OverviewOutcome :=
  match sidecar with
  | some bytes =>
    match parseFlatDict bytes with
    | some d => some ⟨pyDumps 2 d, some bytes, []⟩
    | none => generateOverview svc fs readable backend shuffled persistOk
  | none => generateOverview svc fs readable backend shuffled persistOk

/-- The regex-filtered file list of `map_query_tool_regex` and
`map_query_tool_regex_sampled` (lines 196-198 and 222-224): the full
enumeration filtered by `regex.search`, modelled by the abstract
predicate `matchesRx` (match anywhere in the relative path). -/
def regexFiltered (svc : FileQueryService) (fs : FS)
    (matchesRx : String → Bool) : List String :=
  (directory_tree_full svc fs).filter matchesRx

/-- The `map_query_tool_regex_sampled` tool (lines 206-233):
`random.shuffle` (modelled by the oracle `shuffle`, constrained in
theorems to produce a permutation of its input) followed by the slice
`target_files[:sample_size]`, then `map_query_files`, serialized with
`indent=2`.  `none` models an unhandled exception. -/
def map_query_tool_regex_sampled (svc : FileQueryService) (fs : FS)
    (readable : PyPath → Bool) (backend : PyPath → BackendResult)
    (matchesRx : String → Bool) (shuffle : List String → List String)
    (sample_size : Nat) : Option String :=
  let target_files := regexFiltered svc fs matchesRx
  let sampled_files := (shuffle target_files).take sample_size
  (map_query_files svc fs readable backend sampled_files).map (pyDumps 2)

/-- The files for which `map_query_tool_regex_sampled` schedules an
inference task. -/
def sampledInferenceCalls (svc : FileQueryService) (fs : FS)
    (matchesRx : String → Bool) (shuffle : List String → List String)
    (sample_size : Nat) : List PyPath :=
  inferenceCalls svc fs ((shuffle (regexFiltered svc fs matchesRx)).take sample_size)

/-- Status of one `process_with_semaphore` task (lines 140-147):
`running` means past `semaphore.acquire` (entry into
`async with semaphore`) and not yet settled. -/
inductive TaskStatus where
  | waiting
  | running
  | done
deriving DecidableEq, BEq

/-- Number of tasks currently past semaphore admission and not settled. -/
def runningCount (ts : List TaskStatus) : Nat :=
  ts.countP (fun s => s == TaskStatus.running)

/-- One step of the cooperative scheduler driving the batch: `acquire`
moves a waiting task into the semaphore-guarded region, enabled only
when fewer than `cap` tasks hold the semaphore — exactly how
`asyncio.Semaphore(cap)` grants an acquire; `finish` settles a running
task (success or failure both release the semaphore). -/
inductive SemStep (cap : Nat) : List TaskStatus → List TaskStatus → Prop where
  | acquire (ts : List TaskStatus) (i : Nat)
      (hw : ts.get? i = some TaskStatus.waiting)
      (hcap : runningCount ts < cap) :
      SemStep cap ts (ts.set i TaskStatus.running)
  | finish (ts : List TaskStatus) (i : Nat)
      (hr : ts.get? i = some TaskStatus.running) :
      SemStep cap ts (ts.set i TaskStatus.done)

/-- The states reachable while `map_query_files` processes a batch of `n`
files: every task starts waiting on the semaphore. -/
def SemReachable (cap n : Nat) (ts : List TaskStatus) : Prop :=
  Relation.ReflTransGen (SemStep cap) (List.replicate n TaskStatus.waiting) ts

/-! ## Concrete instances used as witnesses and counterexamples -/

/-- A service rooted at `/r`. -/
def svcR : FileQueryService := ⟨["r"]⟩

/-- A filesystem with the single file `/r/a.txt`. -/
def fsA : FS := ⟨[["r", "a.txt"]]⟩

/-- A filesystem with `/r/a.txt` and `/r/b.txt`. -/
def fsAB : FS := ⟨[["r", "a.txt"], ["r", "b.txt"]]⟩

/-- Every file is readable. -/
def allReadable : PyPath → Bool := fun _ => true

/-- A backend that always answers `ans`. -/
def okBackend : PyPath → BackendResult := fun _ => BackendResult.ok "ans"

/-- A backend that raises on `/r/b.txt` and answers `A` elsewhere. -/
def mixedBackend : PyPath → BackendResult := fun p =>
  if p.segs = ["r", "b.txt"] then BackendResult.exn "boom" else BackendResult.ok "A"

/-- A service rooted at `/r/data`. -/
def svcData : FileQueryService := ⟨["r", "data"]⟩

/-- A filesystem with `/r/secret.txt` outside the root `/r/data` and
`/r/data/x.txt` inside it. -/
def fsEscape : FS := ⟨[["r", "secret.txt"], ["r", "data", "x.txt"]]⟩

/-! ## Helper lemmas -/

lemma isPrefixOf_append (l t : List String) : l.isPrefixOf (l ++ t) = true := by
  simp [List.isPrefixOf_iff_prefix]

lemma relativeTo_join (svc : FileQueryService) (f : String)
    (h : isAbsolutePath f = false) :
    relativeTo svc.root (joinPath svc.rootPath f) =
      some (String.intercalate "/" (splitPath f)) := by
  simp [relativeTo, joinPath, FileQueryService.rootPath, h, isPrefixOf_append,
    List.drop_left]

lemma mem_targetFiles (svc : FileQueryService) (fs : FS)
    (filenames : List String) (p : PyPath) :
    p ∈ targetFiles svc fs filenames ↔
      (∃ f ∈ filenames, joinPath svc.rootPath f = p) ∧ fs.isFile p = true := by
  simp [targetFiles, List.mem_filter, List.mem_map]

lemma dictInsert_fresh (d : List (String × String)) (k v : String)
    (h : ∀ kv ∈ d, kv.1 ≠ k) : dictInsert d k v = d ++ [(k, v)] := by
  simp only [dictInsert]
  split
  · next hcond =>
    exfalso
    rcases List.any_eq_true.mp hcond with ⟨kv, hmem, hbeq⟩
    exact h kv hmem (by simpa using hbeq)
  · rfl

lemma formatResults_eq (svc : FileQueryService) (readable : PyPath → Bool)
    (backend : PyPath → BackendResult) :
    ∀ (ts : List PyPath) (d : List (String × String)),
      (∀ p ∈ ts, (relativeTo svc.root p).isSome) →
      ((ts.map (fun p => relativeTo svc.root p)).Nodup) →
      (∀ p ∈ ts, ∀ kv ∈ d, some kv.1 ≠ relativeTo svc.root p) →
      formatResults svc readable backend ts d =
        some (d ++ ts.map (fun p =>
          ((relativeTo svc.root p).getD "",
            processSingleFile readable backend p))) := by
  intro ts
  induction ts with
  | nil => intro d _ _ _; simp [formatResults]
  | cons p ps ih =>
    intro d hsome hnodup hfresh
    obtain ⟨k, hk⟩ := Option.isSome_iff_exists.mp (hsome p (List.mem_cons_self p ps))
    simp only [List.map_cons, List.nodup_cons] at hnodup
    obtain ⟨hnotin, hndps⟩ := hnodup
    have hfreshd : ∀ kv ∈ d, kv.1 ≠ k := by
      intro kv hkv he
      exact hfresh p (List.mem_cons_self p ps) kv hkv (by rw [he, hk])
    simp only [formatResults, hk]
    rw [dictInsert_fresh d k _ hfreshd]
    rw [ih (d ++ [(k, processSingleFile readable backend p)])
      (fun q hq => hsome q (List.mem_cons_of_mem p hq)) hndps ?_]
    · simp [hk, List.append_assoc]
    · intro q hq kv hkv
      rcases List.mem_append.mp hkv with hkv | hkv
      · exact hfresh q (List.mem_cons_of_mem p hq) kv hkv
      · simp only [List.mem_singleton] at hkv
        subst hkv
        intro he
        exact hnotin (by rw [hk, he]; exact List.mem_map_of_mem _ hq)

/-! ## Claims -/

/-- C1 (amended): when the resolved working set is non-empty, all its
filenames are relative, and the resolved relative paths are pairwise
distinct, `map_query_files` returns exactly one key per resolved file —
the file's relative path — mapped to that file's own outcome
(`processSingleFile`: the inference text on success, a human-readable
error string on failure), so the Batch Result has exactly N keys and one
file's failure never removes or alters a sibling entry nor fails the
batch.  (The un-amended claim fails when the working set contains
duplicate paths: the dict collapses them into one key.) -/
theorem map_query_files_distinct_keys (svc : FileQueryService) (fs : FS)
    (readable : PyPath → Bool) (backend : PyPath → BackendResult)
    (filenames : List String)
    (hne : targetFiles svc fs filenames ≠ [])
    (habs : ∀ f ∈ filenames, isAbsolutePath f = false)
    (hnodup : ((targetFiles svc fs filenames).map
      (fun p => relativeTo svc.root p)).Nodup) :
    map_query_files svc fs readable backend filenames =
      some ((targetFiles svc fs filenames).map (fun p =>
        ((relativeTo svc.root p).getD "",
          processSingleFile readable backend p))) ∧
    (map_query_files svc fs readable backend filenames).map List.length =
      some (targetFiles svc fs filenames).length := by
  have hempty : (targetFiles svc fs filenames).isEmpty = false := by
    cases h : targetFiles svc fs filenames with
    | nil => exact absurd h hne
    | cons a l => rfl
  have hsome : ∀ p ∈ targetFiles svc fs filenames,
      (relativeTo svc.root p).isSome := by
    intro p hp
    obtain ⟨⟨f, hf, hjoin⟩, _⟩ := (mem_targetFiles svc fs filenames p).mp hp
    rw [← hjoin, relativeTo_join svc f (habs f hf)]
    rfl
  have hmain : map_query_files svc fs readable backend filenames =
      some ((targetFiles svc fs filenames).map (fun p =>
        ((relativeTo svc.root p).getD "",
          processSingleFile readable backend p))) := by
    simp only [map_query_files, hempty, Bool.false_eq_true, if_false]
    rw [formatResults_eq svc readable backend (targetFiles svc fs filenames) []
      hsome hnodup (by intro q hq kv hkv; simp at hkv)]
    simp
  exact ⟨hmain, by rw [hmain]; simp⟩

/-- C1 (counterexample to the claim as stated): a working set with two
entries for the same file yields a Batch Result with one key, not two. -/
theorem map_query_files_duplicate_filenames_collapse :
    (targetFiles svcR fsA ["a.txt", "a.txt"]).length = 2 ∧
    map_query_files svcR fsA allReadable okBackend ["a.txt", "a.txt"] =
      some [("a.txt", "ans")] := ⟨rfl, rfl⟩

/-- C1 witness: two distinct files, one inference success and one
backend failure, yield two keys — text for the success, an error string
for the failure. -/
theorem map_query_files_distinct_keys_witness :
    map_query_files svcR fsAB allReadable mixedBackend ["a.txt", "b.txt"] =
      some [("a.txt", "A"),
        ("b.txt", "Error processing file /r/b.txt: boom")] := by
  have h := (map_query_files_distinct_keys svcR fsAB allReadable mixedBackend
    ["a.txt", "b.txt"] (by decide) (by decide) (by decide)).1
  rw [h]
  rfl

/-- C2 (amended): a file reference is admitted into the working set iff
the `pathlib` join of the root with the reference is an existing regular
file — existence and regular-file checks are performed, but nothing
requires the resolved path to lie inside the root. -/
theorem targetFiles_mem_iff (svc : FileQueryService) (fs : FS)
    (filenames : List String) (p : PyPath) :
    p ∈ targetFiles svc fs filenames ↔
      (∃ f ∈ filenames, joinPath svc.rootPath f = p) ∧ fs.isFile p = true :=
  mem_targetFiles svc fs filenames p

/-- C2 (counterexample to the claim as stated): with root `/r/data`, the
reference `../secret.txt` resolves to `/r/secret.txt`, strictly outside
the root, yet it is admitted into the working set and an inference call
is scheduled for it. -/
theorem targetFiles_escapes_root :
    inferenceCalls svcData fsEscape ["../secret.txt"] =
      [⟨true, ["r", "data", "..", "secret.txt"]⟩] ∧
    resolveSegs ["r", "data", "..", "secret.txt"] = ["r", "secret.txt"] ∧
    (["r", "data"] : List String).isPrefixOf ["r", "secret.txt"] = false :=
  ⟨rfl, rfl, rfl⟩

/-- C9: when the resolved working set is empty, `map_query_files`
returns the single top-level error dict and schedules no inference
call. -/
theorem map_query_files_empty_selection (svc : FileQueryService) (fs : FS)
    (readable : PyPath → Bool) (backend : PyPath → BackendResult)
    (filenames : List String) (h : targetFiles svc fs filenames = []) :
    map_query_files svc fs readable backend filenames =
      some [("error", "No valid target files found")] ∧
    inferenceCalls svc fs filenames = [] := by
  constructor <;> simp [map_query_files, inferenceCalls, h]

/-- C9 witness: a filenames list holding only a nonexistent path. -/
theorem map_query_files_empty_selection_witness :
    map_query_files svcR fsA allReadable okBackend ["nope.txt"] =
      some [("error", "No valid target files found")] ∧
    inferenceCalls svcR fsA ["nope.txt"] = [] :=
  map_query_files_empty_selection svcR fsA allReadable okBackend ["nope.txt"]
    (by decide)

lemma taskStatusBeq_waiting : (TaskStatus.waiting == TaskStatus.running) = false :=
  rfl

lemma taskStatusBeq_done : (TaskStatus.done == TaskStatus.running) = false := rfl

lemma taskStatusBeq_running : (TaskStatus.running == TaskStatus.running) = true :=
  rfl

lemma runningCount_replicate_waiting :
    ∀ n, runningCount (List.replicate n TaskStatus.waiting) = 0
  | 0 => rfl
  | n + 1 => by
    have ih := runningCount_replicate_waiting n
    simp only [List.replicate_succ, runningCount, List.countP_cons] at ih ⊢
    simp [ih, taskStatusBeq_waiting]

lemma runningCount_set_running_le (ts : List TaskStatus) (i : Nat) :
    runningCount (ts.set i TaskStatus.running) ≤ runningCount ts + 1 := by
  induction ts generalizing i with
  | nil => simp [runningCount]
  | cons a l ih =>
    cases i with
    | zero =>
      cases a <;>
        simp [runningCount, List.countP_cons, taskStatusBeq_waiting,
          taskStatusBeq_done, taskStatusBeq_running]
    | succ j =>
      have := ih j
      simp only [List.set_cons_succ, runningCount, List.countP_cons] at this ⊢
      omega

lemma runningCount_set_done_le (ts : List TaskStatus) (i : Nat) :
    runningCount (ts.set i TaskStatus.done) ≤ runningCount ts := by
  induction ts generalizing i with
  | nil => simp [runningCount]
  | cons a l ih =>
    cases i with
    | zero =>
      cases a <;>
        simp [runningCount, List.countP_cons, taskStatusBeq_waiting,
          taskStatusBeq_done, taskStatusBeq_running]
    | succ j =>
      have := ih j
      simp only [List.set_cons_succ, runningCount, List.countP_cons] at this ⊢
      omega

/-- C3: while `map_query_files` processes a batch of `n` files, in every
reachable scheduler state the number of tasks simultaneously past
semaphore admission and not yet settled is at most
`MAX_CONCURRENT_TASKS` (50), whatever the batch size `n`. -/
theorem semaphore_running_le_cap (n : Nat) (ts : List TaskStatus)
    (h : SemReachable MAX_CONCURRENT_TASKS n ts) :
    runningCount ts ≤ MAX_CONCURRENT_TASKS := by
  induction h with
  | refl => simp [runningCount_replicate_waiting]
  | tail hsteps hstep ih =>
    cases hstep with
    | acquire i hw hcap =>
      exact le_trans (runningCount_set_running_le _ i) hcap
    | finish i hr =>
      exact le_trans (runningCount_set_done_le _ i) ih

/-- C3 witness: the initial state of a batch of 1000 files is reachable
and satisfies the bound. -/
theorem semaphore_running_le_cap_witness :
    runningCount (List.replicate 1000 TaskStatus.waiting) ≤ MAX_CONCURRENT_TASKS :=
  semaphore_running_le_cap 1000 (List.replicate 1000 TaskStatus.waiting)
    Relation.ReflTransGen.refl

/-- C4 (code-bug evidence): the `@retry(stop=stop_after_attempt(3))`
decorator never retries, because the body of `_process_single_file`
catches every exception and returns an error string instead of raising.
Every call performs exactly one attempt and returns normally — so a
transient backend failure that would succeed on a second attempt still
yields an error-string outcome after one attempt, and no
`InferenceError`-style failure carrying the last cause ever escapes. -/
theorem process_single_file_never_retries :
    (∀ (readable : PyPath → Bool) (backendAt : Nat → BackendResult) (p : PyPath),
      process_single_file readable backendAt p =
        (Except.ok (processSingleFile readable (fun _ => backendAt 0) p), 1)) ∧
    process_single_file allReadable
      (fun n => if n = 0 then BackendResult.exn "transient backend failure"
        else BackendResult.ok "recovered") ⟨true, ["r", "a.txt"]⟩ =
      (Except.ok "Error processing file /r/a.txt: transient backend failure", 1) := by
  exact ⟨fun readable backendAt p => rfl, rfl⟩

/-- The Batch Result persisted in the sidecar for the C5 scenario. -/
def c5Dict : List (String × String) := [("a.txt", "summary")]

/-- The sidecar bytes as `get_overview` persists them (`indent=4`). -/
def c5Bytes : String := pyDumps 4 c5Dict

/-- C5 (amended): when the sidecar parses as JSON, `get_overview`
returns the parsed value re-serialized with `indent=2` — value-identical
to the persisted data, though not byte-identical since persistence used
`indent=4` — leaves the sidecar untouched, and schedules no inference
call; a second call thus returns exactly the string the first call
returned. -/
theorem get_overview_cached_reserialization (svc : FileQueryService) (fs : FS)
    (readable : PyPath → Bool) (backend : PyPath → BackendResult)
    (bytes : String) (shuffled : List String) (persistOk : Bool)
    (d : List (String × String)) (h : parseFlatDict bytes = some d) :
    get_overview svc fs readable backend (some bytes) shuffled persistOk =
      some ⟨pyDumps 2 d, some bytes, []⟩ := by
  simp [get_overview, h]

/-- C5 (counterexample to the claim as stated): a sidecar persisted by a
prior call (`indent=4`) is returned re-serialized with `indent=2`, which
is not the persisted content byte-for-byte. -/
theorem get_overview_not_byte_identical :
    get_overview svcR fsA allReadable okBackend (some c5Bytes) [] true =
      some ⟨pyDumps 2 c5Dict, some c5Bytes, []⟩ ∧
    pyDumps 2 c5Dict ≠ c5Bytes := ⟨rfl, by decide⟩

/-- C5 witness: the amended theorem applied to the persisted sidecar. -/
theorem get_overview_cached_reserialization_witness :
    get_overview svcR fsA allReadable okBackend (some c5Bytes) [] true =
      some ⟨pyDumps 2 c5Dict, some c5Bytes, []⟩ :=
  get_overview_cached_reserialization svcR fsA allReadable okBackend c5Bytes []
    true c5Dict (by decide)

/-- C6 (amended): the reserved sidecar filename is excluded from the
full-tree enumeration, hence from the `directory_tree` tool output and
from every regex-filtered selection — but not from `ls` (see the
counterexample). -/
theorem overview_excluded_from_tree_listings (svc : FileQueryService) (fs : FS)
    (matchesRx : String → Bool) :
    OVERVIEW_FILENAME ∉ directory_tree_full svc fs ∧
    OVERVIEW_FILENAME ∉ (directory_tree svc fs).files ∧
    OVERVIEW_FILENAME ∉ regexFiltered svc fs matchesRx := by
  have h : OVERVIEW_FILENAME ∉ directory_tree_full svc fs := by
    intro hmem
    simp [directory_tree_full, List.mem_filter] at hmem
  refine ⟨h, ?_, ?_⟩
  · intro hmem
    exact h (List.take_subset _ _ (by simpa [directory_tree] using hmem))
  · intro hmem
    exact h (List.mem_of_mem_filter hmem)

/-- A root containing the sidecar `/r/_OVERVIEW.json` next to a file. -/
def fsOverview : FS := ⟨[["r", "_OVERVIEW.json"], ["r", "a.txt"]]⟩

/-- C6 (counterexample to the claim as stated): `ls` of the root lists
the reserved sidecar filename. -/
theorem ls_lists_overview_sidecar :
    ls svcR fsOverview "" = Except.ok ["_OVERVIEW.json", "a.txt"] ∧
    OVERVIEW_FILENAME ∈ ["_OVERVIEW.json", "a.txt"] := ⟨rfl, by decide⟩

/-- C7 (amended): `directory_tree` returns the first
`MAX_FILES_FOR_DIR_TREE` (100) entries of the full enumeration — so at
most 100 — and its `truncated` flag is true exactly when the full
(sidecar-excluded) enumeration has at least 100 entries; in particular
the flag is true for a tree of exactly 100 files even though nothing was
dropped. -/
theorem directory_tree_truncated_iff (svc : FileQueryService) (fs : FS) :
    (directory_tree svc fs).files =
      (directory_tree_full svc fs).take MAX_FILES_FOR_DIR_TREE ∧
    (directory_tree svc fs).files.length ≤ MAX_FILES_FOR_DIR_TREE ∧
    ((directory_tree svc fs).truncated = true ↔
      MAX_FILES_FOR_DIR_TREE ≤ (directory_tree_full svc fs).length) := by
  refine ⟨rfl, ?_, ?_⟩
  · simp [directory_tree, List.length_take]
  · simp only [directory_tree, beq_iff_eq, List.length_take,
      MAX_FILES_FOR_DIR_TREE]
    omega

/-- A root holding exactly 100 files. -/
def fs100 : FS := ⟨(List.range 100).map (fun i => ["r", Nat.repr i])⟩

/-- C7 (counterexample to the claim as stated): with exactly 100 files
the flag claims truncation although the returned list is the whole
enumeration. -/
theorem directory_tree_truncated_at_exactly_cap :
    (directory_tree svcR fs100).truncated = true ∧
    (directory_tree svcR fs100).files = directory_tree_full svcR fs100 :=
  ⟨rfl, rfl⟩

/-- C8: whatever permutation the shuffle produces, the sampled selection
has exactly `min sample_size N` entries (`N` the regex-filtered set's
size), pairwise distinct (without replacement), each a member of the
filtered set; and when `N ≤ sample_size` it is the whole filtered set —
`sample_size` bounds, never pads. -/
theorem sampled_selection_spec (svc : FileQueryService) (fs : FS)
    (matchesRx : String → Bool) (shuffle : List String → List String) (k : Nat)
    (hnodup : (directory_tree_full svc fs).Nodup)
    (hperm : (shuffle (regexFiltered svc fs matchesRx)).Perm
      (regexFiltered svc fs matchesRx)) :
    ((shuffle (regexFiltered svc fs matchesRx)).take k).length =
      min k (regexFiltered svc fs matchesRx).length ∧
    ((shuffle (regexFiltered svc fs matchesRx)).take k).Nodup ∧
    (∀ x ∈ (shuffle (regexFiltered svc fs matchesRx)).take k,
      x ∈ regexFiltered svc fs matchesRx) ∧
    ((regexFiltered svc fs matchesRx).length ≤ k →
      ((shuffle (regexFiltered svc fs matchesRx)).take k).Perm
        (regexFiltered svc fs matchesRx)) := by
  have hfilter : (regexFiltered svc fs matchesRx).Nodup :=
    List.Nodup.filter _ hnodup
  have hshuf : (shuffle (regexFiltered svc fs matchesRx)).Nodup :=
    (List.Perm.nodup_iff hperm).mpr hfilter
  refine ⟨?_, ?_, ?_, ?_⟩
  · rw [List.length_take, List.Perm.length_eq hperm]
  · exact List.Nodup.sublist (List.take_sublist _ _) hshuf
  · intro x hx
    exact (List.Perm.mem_iff hperm).mp (List.take_subset _ _ hx)
  · intro hle
    have : (shuffle (regexFiltered svc fs matchesRx)).length ≤ k := by
      rw [List.Perm.length_eq hperm]; exact hle
    rw [List.take_of_length_le this]
    exact hperm

/-- A root with three files, one of which fails the C8 filter. -/
def fsC8 : FS := ⟨[["r", "a.txt"], ["r", "b.log"], ["r", "c.txt"]]⟩

/-- The C8 filter: everything except `b.log`. -/
def c8Matches : String → Bool := fun s => s != "b.log"

/-- C8 witness: sampling 1 of the 2 filtered files through a concrete
shuffle (reversal). -/
theorem sampled_selection_spec_witness :
    ((List.reverse (regexFiltered svcR fsC8 c8Matches)).take 1).length =
      min 1 (regexFiltered svcR fsC8 c8Matches).length ∧
    ((List.reverse (regexFiltered svcR fsC8 c8Matches)).take 1).Nodup ∧
    (∀ x ∈ (List.reverse (regexFiltered svcR fsC8 c8Matches)).take 1,
      x ∈ regexFiltered svcR fsC8 c8Matches) ∧
    ((regexFiltered svcR fsC8 c8Matches).length ≤ 1 →
      ((List.reverse (regexFiltered svcR fsC8 c8Matches)).take 1).Perm
        (regexFiltered svcR fsC8 c8Matches)) :=
  sampled_selection_spec svcR fsC8 c8Matches List.reverse 1 (by decide) (by decide)

/-- C10: `map_query_tool_regex_sampled` with `sample_size = 0` returns
the serialized top-level error dict — the same response as an empty
filter result — and schedules no inference call, whatever the regex
matches and however the shuffle permutes. -/
theorem sampled_zero_sample_size (svc : FileQueryService) (fs : FS)
    (readable : PyPath → Bool) (backend : PyPath → BackendResult)
    (matchesRx : String → Bool) (shuffle : List String → List String) :
    map_query_tool_regex_sampled svc fs readable backend matchesRx shuffle 0 =
      some (pyDumps 2 [("error", "No valid target files found")]) ∧
    sampledInferenceCalls svc fs matchesRx shuffle 0 = [] := by
  constructor <;>
    simp [map_query_tool_regex_sampled, sampledInferenceCalls, map_query_files,
      inferenceCalls, targetFiles]

end FileQuery
